import Mathlib

/-!
Verification of the jimeng-gateway task queue, session pool, rate limiter
and admission control against their specification. Each definition is a
shallow embedding of the corresponding Rust function; SQL statements are
modelled as functions on the affected row (the WHERE clause of each update
becomes a guard, an update without a status precondition becomes an
unconditional write).
-/

set_option maxRecDepth 4000

namespace JimengGateway

/-! Task status (queue/mod.rs, enum TaskStatus). -/

inductive TaskStatus where
  | queued
  | submitting
  | polling
  | downloading
  | succeeded
  | failed
  | cancelled
deriving DecidableEq, Repr

/-- Terminal statuses per the data model: succeeded, failed, cancelled. -/
def isTerminal : TaskStatus → Bool
  | .succeeded => true
  | .failed => true
  | .cancelled => true
  | _ => false

/-! Per-row effect on the status column of each status-writing SQL
statement of the worker and the queue. A statement whose WHERE clause
constrains the prior status becomes a guarded update; a statement whose
WHERE clause only names the id becomes an unconditional write. -/

/-- worker.rs claim statement: promotes a queued task to submitting
(the id subquery selects a row whose status is queued). -/
def worker_claim_write (s : TaskStatus) : TaskStatus :=
  if s = .queued then .submitting else s

/-- worker.rs re-queue statement when no session is available: WHERE id
only, no status guard. -/
def worker_requeue_write (_s : TaskStatus) : TaskStatus := .queued

/-- worker.rs poll-progress statement: sets status = polling, WHERE id
only, no status guard. -/
def worker_poll_progress_write (_s : TaskStatus) : TaskStatus := .polling

/-- worker.rs success statement: guarded by status != cancelled. -/
def worker_succeed_write (s : TaskStatus) : TaskStatus :=
  if s = .cancelled then s else .succeeded

/-- worker.rs failure statement: WHERE id only, no status guard. -/
def worker_fail_write (_s : TaskStatus) : TaskStatus := .failed

/-- queue/mod.rs cancel_task statement: guarded by
status IN (queued, submitting, polling). -/
def cancel_write (s : TaskStatus) : TaskStatus :=
  if s = .queued ∨ s = .submitting ∨ s = .polling then .cancelled else s

/-! Task row model for cancel_task (queue/mod.rs). -/

structure TaskRow where
  status : TaskStatus
  finished_at : Option String
  updated_at : String
deriving DecidableEq, Repr

/-- queue/mod.rs cancel_task: one UPDATE setting status = cancelled and
finished_at, guarded by status IN (queued, submitting, polling); the Bool
is rows_affected > 0. -/
def cancel_task (t : TaskRow) (now : String) : Bool × TaskRow :=
  if t.status = .queued ∨ t.status = .submitting ∨ t.status = .polling then
    (true, { status := .cancelled, finished_at := some now, updated_at := now })
  else
    (false, t)

/-! Enqueue (queue/mod.rs, TaskQueue::enqueue). -/

structure CreateTaskRequest where
  prompt : String
  duration : Option Int
  ratio : Option String
  model : Option String
deriving DecidableEq, Repr

structure TaskRecord where
  id : String
  status : TaskStatus
  model : String
  prompt : String
  duration : Int
  ratio : String
  request_body : Option (List Nat)
  request_content_type : Option String
  created_at : String
  updated_at : String
  started_at : Option String
  finished_at : Option String
deriving DecidableEq, Repr

/-- queue/mod.rs enqueue: inserts a queued row with defaults
jimeng-video-seedance-2.0 / 4 / 9:16 for the omitted optional fields. -/
def enqueue (req : CreateTaskRequest) (request_body : Option (List Nat))
    (request_content_type : Option String) (id now : String) : TaskRecord :=
  { id := id
    status := .queued
    model := req.model.getD "jimeng-video-seedance-2.0"
    prompt := req.prompt
    duration := req.duration.getD 4
    ratio := req.ratio.getD "9:16"
    request_body := request_body
    request_content_type := request_content_type
    created_at := now
    updated_at := now
    started_at := none
    finished_at := none }

/-! Error classification (worker.rs, classify_error). Lowercasing is
modelled on ASCII letters; substring search is the naive scan. -/

def toLowerAscii (c : Char) : Char :=
  if 'A' ≤ c ∧ c ≤ 'Z' then Char.ofNat (c.toNat + 32) else c

def lowerStr (s : String) : String :=
  String.mk (s.data.map toLowerAscii)

def isPrefixList : List Char → List Char → Bool
  | [], _ => true
  | _ :: _, [] => false
  | a :: l1, b :: l2 => a = b && isPrefixList l1 l2

/-- Substring containment of the needle n in the haystack, as str contains. -/
def hasSub (n : List Char) : List Char → Bool
  | [] => n.isEmpty
  | c :: t => isPrefixList n (c :: t) || hasSub n t

def contains_str (s sub : String) : Bool := hasSub sub.data s.data

/-- worker.rs classify_error: lowercase the message, then test the
categories in order auth, timeout, platform_rule, network, unknown. -/
def classify_error (msg : String) : String :=
  let m := lowerStr msg
  if contains_str m "authorization" || contains_str m "unauthorized" ||
      contains_str m "login" || contains_str m "token" then "auth"
  else if contains_str m "timeout" || contains_str m "timed out" then "timeout"
  else if contains_str m "平台规则" || contains_str m "内容违规" then "platform_rule"
  else if contains_str m "network" || contains_str m "econnrefused" then "network"
  else "unknown"

/-- worker.rs failure branch: the session is demoted exactly when the
classified kind is auth. -/
def demotes_session (err_msg : String) : Bool := classify_error err_msg = "auth"

/-! Aspect ratio (jimeng/models.rs, gcd and aspect_ratio_str). -/

set_option linter.unusedVariables false in
/-- models.rs gcd: if b == 0 then a else gcd b (a % b). -/
def gcd (a b : Nat) : Nat :=
  if h : b = 0 then a else gcd b (a % b)
termination_by b
decreasing_by exact Nat.mod_lt a (Nat.pos_of_ne_zero h)

/-- models.rs aspect_ratio_str: the reduced fraction w:h. Rust divides by
gcd width height, which panics when that gcd is zero (width = height = 0);
the panic is modelled as none. -/
def aspect_ratio_str (width height : Nat) : Option String :=
  let d := gcd width height
  if d = 0 then none
  else some (toString (width / d) ++ ":" ++ toString (height / d))

/-! WAV duration parser (jimeng/upload.rs, parse_audio_duration).
Bytes are Nat values below 256; out-of-range reads never happen under the
guards of the source and default to 0. The f64 arithmetic of the source is
exact on the values involved and its cast to u32 truncates toward zero and
saturates, modelled as Nat floor division followed by clamping. -/

def U32_MAX : Nat := 4294967295

def clampU32 (n : Nat) : Nat := min n U32_MAX

def byteAt (data : List Nat) (i : Nat) : Nat := data.getD i 0

/-- Little-endian u32 read at offset i, as u32 from_le_bytes. -/
def read_u32_le (data : List Nat) (i : Nat) : Nat :=
  byteAt data i + 256 * (byteAt data (i + 1) +
    256 * (byteAt data (i + 2) + 256 * byteAt data (i + 3)))

/-- Four-byte slice at offset i, as data[i..i+4]. -/
def chunkIdAt (data : List Nat) (i : Nat) : List Nat :=
  [byteAt data i, byteAt data (i + 1), byteAt data (i + 2), byteAt data (i + 3)]

def riffId : List Nat := [82, 73, 70, 70]

def waveId : List Nat := [87, 65, 86, 69]

def dataChunkId : List Nat := [100, 97, 116, 97]

/-- The chunk-scanning while loop of parse_audio_duration. The loop body
advances offset by at least 8 while the guard needs offset + 8 < length,
so it runs fewer than length iterations; fuel = length therefore never
runs out on the entry call and the fuel-0 branch repeats the loop-exit
fallback. -/
def scan_chunks (data : List Nat) (byte_rate : Nat) : Nat → Nat → Nat
  | 0, _ => clampU32 ((data.length - 44) * 1000 / byte_rate)
  | fuel + 1, offset =>
    if offset + 8 < data.length then
      if chunkIdAt data offset = dataChunkId then
        clampU32 (read_u32_le data (offset + 4) * 1000 / byte_rate)
      else
        scan_chunks data byte_rate fuel (offset + 8 + read_u32_le data (offset + 4))
    else clampU32 ((data.length - 44) * 1000 / byte_rate)

/-- upload.rs parse_audio_duration. -/
def parse_audio_duration (data : List Nat) : Nat :=
  if data.length < 44 then 0
  else if chunkIdAt data 0 = riffId ∧ chunkIdAt data 8 = waveId then
    let byte_rate := read_u32_le data 28
    if byte_rate = 0 then 0
    else scan_chunks data byte_rate data.length 12
  else
    clampU32 (data.length * 1000 / 16000)

/-- The size of the first data chunk the scan of parse_audio_duration
reaches, stated from the specification side: the chunk chain is walked with
the same fuel discipline as the loop. -/
def first_data_chunk (data : List Nat) : Nat → Nat → Option Nat
  | 0, _ => none
  | fuel + 1, offset =>
    if offset + 8 < data.length then
      if chunkIdAt data offset = dataChunkId then
        some (read_u32_le data (offset + 4))
      else
        first_data_chunk data fuel (offset + 8 + read_u32_le data (offset + 4))
    else none

/-! Session pool (pool/mod.rs, pick_session). The single UPDATE with the
ORDER BY last_used_at LIMIT 1 subquery is modelled as: select an eligible
session with minimal last_used_at (NULL sorts first, ties keep the earlier
row), bump its counters, and rewrite the pool. -/

structure SessionInfo where
  id : Nat
  enabled : Bool
  healthy : Bool
  active_tasks : Nat
  last_used_at : Option Nat
deriving DecidableEq, Repr

/-- Eligibility per the WHERE clause: enabled, healthy, active_tasks < 2. -/
def eligible (s : SessionInfo) : Bool :=
  s.enabled && s.healthy && decide (s.active_tasks < 2)

/-- Ascending order on last_used_at with NULL first, as SQLite ORDER BY. -/
def luLe : Option Nat → Option Nat → Bool
  | none, _ => true
  | some _, none => false
  | some a, some b => a ≤ b

def luLt : Option Nat → Option Nat → Bool
  | none, none => false
  | none, some _ => true
  | some _, none => false
  | some a, some b => a < b

/-- The id subquery: an eligible session with minimal last_used_at. -/
def select_min_eligible : List SessionInfo → Option SessionInfo
  | [] => none
  | s :: rest =>
    match select_min_eligible rest with
    | none => if eligible s then some s else none
    | some m =>
      if eligible s && luLe s.last_used_at m.last_used_at then some s else some m

/-- The SET clause of pick_session on the selected row. -/
def reserve (m : SessionInfo) (now : Nat) : SessionInfo :=
  { m with active_tasks := m.active_tasks + 1, last_used_at := some now }

/-- pool/mod.rs pick_session: the atomic pick-and-reserve UPDATE, returning
the updated row and the new pool state. -/
def pick_session (pool : List SessionInfo) (now : Nat) :
    Option SessionInfo × List SessionInfo :=
  match select_min_eligible pool with
  | none => (none, pool)
  | some m =>
    (some (reserve m now), pool.map fun s => if s.id = m.id then reserve m now else s)

/-! Rate limiter (auth/rate_limiter.rs). The f64 bucket arithmetic is
modelled over the rationals; elapsed is the seconds since the last refill,
which is zero for a bucket inserted by this very call. -/

structure TokenBucket where
  tokens : ℚ
  max_tokens : ℚ
  refill_rate : ℚ
deriving DecidableEq, Repr

structure RateLimitResult where
  allowed : Bool
  limit : Nat
  remaining : Nat
  reset_secs : Nat
deriving DecidableEq, Repr

def floorq (q : ℚ) : Nat := (⌊q⌋).toNat

def ceilq (q : ℚ) : Nat := (⌈q⌉).toNat

/-- rate_limiter.rs check, translated statement by statement: the early
return for rate_limit == 0, fetch-or-create of the bucket, the max update
when the stored max differs by more than 0.01, the refill capped at max,
then the consume or deny branch. The pair carries the bucket map entry for
this key before and after. -/
def check (prev : Option TokenBucket) (rate_limit : Nat) (elapsed : ℚ) :
    RateLimitResult × Option TokenBucket :=
  if rate_limit = 0 then
    ({ allowed := true, limit := 0, remaining := 0, reset_secs := 0 }, prev)
  else
    let b0 : TokenBucket :=
      match prev with
      | some b => b
      | none =>
        { tokens := rate_limit, max_tokens := rate_limit,
          refill_rate := (rate_limit : ℚ) / 60 }
    let e : ℚ := match prev with | some _ => elapsed | none => 0
    let b1 : TokenBucket :=
      if 1 / 100 < |b0.max_tokens - (rate_limit : ℚ)| then
        { b0 with max_tokens := rate_limit, refill_rate := (rate_limit : ℚ) / 60 }
      else b0
    let t : ℚ := min b1.max_tokens (b1.tokens + e * b1.refill_rate)
    if 1 ≤ t then
      let remaining := floorq (t - 1)
      ({ allowed := true, limit := rate_limit, remaining := remaining,
         reset_secs := if remaining = 0 then ceilq (1 / b1.refill_rate) else 0 },
       some { b1 with tokens := t - 1 })
    else
      ({ allowed := false, limit := rate_limit, remaining := 0,
         reset_secs := ceilq ((1 - t) / b1.refill_rate) },
       some { b1 with tokens := t })

/-- Modelled from the specification text of the rate-limit check: with
limit zero allow with all-zero fields and touch no bucket; otherwise refill
tokens to min(max, tokens + elapsed * limit/60), consume one token when at
least one is available (remaining = floor of the rest, reset = ceil of
1/rate when the floor is zero), else deny with reset = ceil of
(1 - tokens)/rate. -/
def check_spec (prev : Option TokenBucket) (rate_limit : Nat) (elapsed : ℚ) :
    RateLimitResult × Option TokenBucket :=
  if rate_limit = 0 then
    ({ allowed := true, limit := 0, remaining := 0, reset_secs := 0 }, prev)
  else
    let rate : ℚ := (rate_limit : ℚ) / 60
    let tokens0 : ℚ := match prev with | some b => b.tokens | none => rate_limit
    let e : ℚ := match prev with | some _ => elapsed | none => 0
    let t : ℚ := min (rate_limit : ℚ) (tokens0 + e * rate)
    if 1 ≤ t then
      ({ allowed := true, limit := rate_limit, remaining := floorq (t - 1),
         reset_secs := if floorq (t - 1) = 0 then ceilq (1 / rate) else 0 },
       some { tokens := t - 1, max_tokens := rate_limit, refill_rate := rate })
    else
      ({ allowed := false, limit := rate_limit, remaining := 0,
         reset_secs := ceilq ((1 - t) / rate) },
       some { tokens := t, max_tokens := rate_limit, refill_rate := rate })

/-- Bucket well-formedness maintained by check: the stored max is a whole
number of requests and the refill rate is max / 60. -/
def WFBucket : Option TokenBucket → Prop
  | none => True
  | some b => ∃ m : Nat, b.max_tokens = (m : ℚ) ∧ b.refill_rate = (m : ℚ) / 60

/-! Rate-limited response (auth/middleware.rs, rate_limit_response and
inject_rate_limit_headers). Headers are a name-value list; the JSON body
is modelled by its two fields. -/

structure HttpResponse where
  status : Nat
  headers : List (String × Nat)
  body_error : String
  body_retry_after : Nat
deriving DecidableEq, Repr

/-- middleware.rs inject_rate_limit_headers: inserts the three
X-RateLimit headers when limit > 0. -/
def inject_rate_limit_headers (headers : List (String × Nat))
    (rl : RateLimitResult) : List (String × Nat) :=
  if 0 < rl.limit then
    headers ++ [("X-RateLimit-Limit", rl.limit),
      ("X-RateLimit-Remaining", rl.remaining),
      ("X-RateLimit-Reset", rl.reset_secs)]
  else headers

/-- middleware.rs rate_limit_response: a 429 with body
error = Rate limit exceeded, retry_after = reset_secs, and the
X-RateLimit headers injected into the fresh response. -/
def rate_limit_response (rl : RateLimitResult) : HttpResponse :=
  { status := 429
    headers := inject_rate_limit_headers [] rl
    body_error := "Rate limit exceeded"
    body_retry_after := rl.reset_secs }

/-! Admission of task creation (routes/compat.rs compat_video_generations
and routes/tasks.rs create_task), reduced to the quota-relevant state: the
HTTP status of the admission outcome and the task count of the caller for
the current UTC date. -/

inductive Caller where
  | apiKey (key_id : String) (daily_quota : Int)
  | adminEnv
  | adminKey (key_id : String)
  | anonymous
deriving DecidableEq, Repr

/-- middleware.rs Caller::key_id. -/
def key_id_of : Caller → Option String
  | .apiKey k _ => some k
  | .adminKey k => some k
  | _ => none

/-- compat.rs compat_video_generations on the success path of scope check
and enqueue: ApiKey callers with daily_quota > 0 are refused with 429 when
today_tasks >= daily_quota; otherwise the task is enqueued with 202 and
record_task increments the count of every caller that has a key id. -/
def compat_video_generations : Caller → Int → Nat × Int
  | .apiKey _ q, t => if 0 < q ∧ q ≤ t then (429, t) else (202, t + 1)
  | c, t => (202, if (key_id_of c).isSome then t + 1 else t)

/-- tasks.rs create_task on the enqueue success path: a 201 with no quota
check and no usage recording. -/
def create_task (_caller : Caller) (today_tasks : Int) : Nat × Int :=
  (201, today_tasks)

/-! Theorems. -/

/-- C1: the claim that no gateway operation ever moves a task out of a
terminal status fails on the code: after a worker claims a queued task and
the client cancels it (a terminal status), the unguarded re-queue write
that runs when no session is available moves the task back to queued, and
the unguarded poll-progress write moves a cancelled task back to polling. -/
theorem terminal_status_not_preserved :
    isTerminal (cancel_write (worker_claim_write .queued)) = true ∧
    worker_requeue_write (cancel_write (worker_claim_write .queued)) = .queued ∧
    isTerminal (worker_requeue_write (cancel_write (worker_claim_write .queued))) = false ∧
    worker_poll_progress_write .cancelled = .polling ∧
    isTerminal (worker_poll_progress_write .cancelled) = false := by
  decide

/-- C5: cancel_task reports true and rewrites the row to cancelled with
finished_at set exactly when the current status is queued, submitting or
polling; on any other status it reports false and leaves the row as it
was. -/
theorem cancel_task_spec (t : TaskRow) (now : String) :
    ((cancel_task t now).1 = true ↔
      (t.status = .queued ∨ t.status = .submitting ∨ t.status = .polling)) ∧
    ((t.status = .queued ∨ t.status = .submitting ∨ t.status = .polling) →
      cancel_task t now =
        (true, { status := .cancelled, finished_at := some now, updated_at := now })) ∧
    (¬(t.status = .queued ∨ t.status = .submitting ∨ t.status = .polling) →
      cancel_task t now = (false, t)) := by
  by_cases h : t.status = .queued ∨ t.status = .submitting ∨ t.status = .polling
  · simp [cancel_task, h]
  · simp [cancel_task, h]

/-- C5 witness: a polling task is cancelled; a succeeded task is left
unchanged with a false result. -/
theorem cancel_task_spec_witness :
    cancel_task ⟨.polling, none, "t0"⟩ "t1" =
      (true, ⟨.cancelled, some "t1", "t1"⟩) ∧
    cancel_task ⟨.succeeded, some "t0", "t0"⟩ "t1" =
      (false, ⟨.succeeded, some "t0", "t0"⟩) :=
  ⟨(cancel_task_spec ⟨.polling, none, "t0"⟩ "t1").2.1 (Or.inr (Or.inr rfl)),
   (cancel_task_spec ⟨.succeeded, some "t0", "t0"⟩ "t1").2.2 (by decide)⟩

/-- C9: enqueue persists the task in status queued, applies the fixed
defaults jimeng-video-seedance-2.0, 4 and 9:16 to omitted optional fields,
and stores caller-supplied fields unchanged. -/
theorem enqueue_defaults (req : CreateTaskRequest) (body : Option (List Nat))
    (ct : Option String) (id now : String) :
    (enqueue req body ct id now).status = TaskStatus.queued ∧
    (enqueue req body ct id now).prompt = req.prompt ∧
    (req.model = none →
      (enqueue req body ct id now).model = "jimeng-video-seedance-2.0") ∧
    (∀ m, req.model = some m → (enqueue req body ct id now).model = m) ∧
    (req.duration = none → (enqueue req body ct id now).duration = 4) ∧
    (∀ d, req.duration = some d → (enqueue req body ct id now).duration = d) ∧
    (req.ratio = none → (enqueue req body ct id now).ratio = "9:16") ∧
    (∀ r, req.ratio = some r → (enqueue req body ct id now).ratio = r) ∧
    (enqueue req body ct id now).request_body = body ∧
    (enqueue req body ct id now).request_content_type = ct ∧
    (enqueue req body ct id now).created_at = now ∧
    (enqueue req body ct id now).id = id := by
  refine ⟨rfl, rfl, ?_, ?_, ?_, ?_, ?_, ?_, rfl, rfl, rfl, rfl⟩
  · intro h; simp [enqueue, h]
  · intro m h; simp [enqueue, h]
  · intro h; simp [enqueue, h]
  · intro d h; simp [enqueue, h]
  · intro h; simp [enqueue, h]
  · intro r h; simp [enqueue, h]

/-- C9 witness: a request with every optional field omitted gets the three
defaults and status queued. -/
theorem enqueue_defaults_witness :
    (enqueue ⟨"a cat", none, none, none⟩ none none "id1" "t0").status =
      TaskStatus.queued ∧
    (enqueue ⟨"a cat", none, none, none⟩ none none "id1" "t0").model =
      "jimeng-video-seedance-2.0" ∧
    (enqueue ⟨"a cat", none, none, none⟩ none none "id1" "t0").duration = 4 ∧
    (enqueue ⟨"a cat", none, none, none⟩ none none "id1" "t0").ratio = "9:16" :=
  ⟨(enqueue_defaults ⟨"a cat", none, none, none⟩ none none "id1" "t0").1,
   (enqueue_defaults ⟨"a cat", none, none, none⟩ none none "id1" "t0").2.2.1 rfl,
   (enqueue_defaults ⟨"a cat", none, none, none⟩ none none "id1" "t0").2.2.2.2.1 rfl,
   (enqueue_defaults ⟨"a cat", none, none, none⟩ none none "id1" "t0").2.2.2.2.2.2.1 rfl⟩

/-- C10: classify_error answers auth exactly when the lowercased message
contains authorization, unauthorized, login or token; in particular a
message containing token is classified auth, and the worker then demotes
the session, regardless of later-category substrings it also contains. -/
theorem classify_error_auth_iff (msg : String) :
    (classify_error msg = "auth" ↔
      (contains_str (lowerStr msg) "authorization" = true ∨
       contains_str (lowerStr msg) "unauthorized" = true ∨
       contains_str (lowerStr msg) "login" = true ∨
       contains_str (lowerStr msg) "token" = true)) ∧
    (contains_str (lowerStr msg) "token" = true → classify_error msg = "auth") ∧
    (contains_str (lowerStr msg) "token" = true → demotes_session msg = true) := by
  by_cases h : (contains_str (lowerStr msg) "authorization" ||
      contains_str (lowerStr msg) "unauthorized" ||
      contains_str (lowerStr msg) "login" ||
      contains_str (lowerStr msg) "token") = true
  · have hc : classify_error msg = "auth" := by
      simp only [classify_error]
      rw [if_pos h]
    refine ⟨⟨fun _ => ?_, fun _ => hc⟩, fun _ => hc, fun _ => ?_⟩
    · simpa [Bool.or_eq_true, or_assoc] using h
    · simp [demotes_session, hc]
  · have hf := h
    simp only [Bool.or_eq_true, not_or, Bool.not_eq_true] at hf
    have hc : classify_error msg ≠ "auth" := by
      simp only [classify_error]
      rw [if_neg h]
      split
      · decide
      split
      · decide
      split
      · decide
      · decide
    refine ⟨⟨fun hx => absurd hx hc, fun hx => ?_⟩, fun hx => ?_, fun hx => ?_⟩
    · rcases hx with hx | hx | hx | hx <;> simp [hx] at hf
    · simp [hx] at hf
    · simp [hx] at hf

/-- C10 witness: a message containing token as well as network and timeout
substrings is classified auth and demotes the session. -/
theorem classify_error_auth_witness :
    contains_str (lowerStr "Token refresh hit a network timeout") "token" = true ∧
    classify_error "Token refresh hit a network timeout" = "auth" ∧
    demotes_session "Token refresh hit a network timeout" = true :=
  ⟨by decide,
   (classify_error_auth_iff "Token refresh hit a network timeout").2.1 (by decide),
   (classify_error_auth_iff "Token refresh hit a network timeout").2.2 (by decide)⟩

/-- The source gcd agrees with the library gcd. -/
theorem gcd_eq_natGcd : ∀ b a : Nat, gcd a b = Nat.gcd a b := by
  intro b
  induction b using Nat.strong_induction_on with
  | _ b ih =>
    intro a
    rw [gcd]
    split
    · rename_i h
      subst h
      exact (Nat.gcd_zero_right a).symm
    · rename_i h
      rw [ih (a % b) (Nat.mod_lt a (Nat.pos_of_ne_zero h)) b]
      rw [Nat.gcd_comm b (a % b), ← Nat.gcd_rec b a, Nat.gcd_comm b a]

/-- C7 counterexample: at the pair (0, 0) the code divides by gcd 0 0 = 0
and panics instead of returning a fraction (the panic is modelled as
none), so the claim quantified over every pair of u32 values fails. -/
theorem aspect_ratio_str_zero_zero : aspect_ratio_str 0 0 = none := by
  simp [aspect_ratio_str, gcd]

/-- C7 amended: for every pair other than (0, 0), aspect_ratio_str returns
the fraction reduced to lowest terms (the two parts are coprime and scale
back to the inputs by the gcd), and for every scale factor k of at least
one the scaled pair yields the same string. -/
theorem aspect_ratio_str_reduced (w h k : Nat) (hne : ¬(w = 0 ∧ h = 0))
    (hk : 1 ≤ k) :
    (∃ a b, aspect_ratio_str w h = some (toString a ++ ":" ++ toString b) ∧
      Nat.Coprime a b ∧ a * Nat.gcd w h = w ∧ b * Nat.gcd w h = h) ∧
    aspect_ratio_str (w * k) (h * k) = aspect_ratio_str w h := by
  have hd : Nat.gcd w h ≠ 0 := by
    intro h0
    exact hne ⟨Nat.eq_zero_of_gcd_eq_zero_left h0, Nat.eq_zero_of_gcd_eq_zero_right h0⟩
  have hdpos : 0 < Nat.gcd w h := Nat.pos_of_ne_zero hd
  have hkpos : 0 < k := hk
  constructor
  · refine ⟨w / Nat.gcd w h, h / Nat.gcd w h, ?_, ?_, ?_, ?_⟩
    · simp [aspect_ratio_str, gcd_eq_natGcd, hd]
    · exact Nat.coprime_div_gcd_div_gcd hdpos
    · exact Nat.div_mul_cancel (Nat.gcd_dvd_left w h)
    · exact Nat.div_mul_cancel (Nat.gcd_dvd_right w h)
  · have hg : Nat.gcd (w * k) (h * k) = Nat.gcd w h * k := Nat.gcd_mul_right w k h
    have hdk : Nat.gcd w h * k ≠ 0 := Nat.mul_ne_zero hd (Nat.pos_iff_ne_zero.mp hkpos)
    simp only [aspect_ratio_str, gcd_eq_natGcd, hg]
    rw [if_neg hdk, if_neg hd, Nat.mul_div_mul_right w (Nat.gcd w h) hkpos,
      Nat.mul_div_mul_right h (Nat.gcd w h) hkpos]

/-- C7 witness: 1280 x 720 reduces to 16:9 and doubling both sides leaves
the string unchanged. -/
theorem aspect_ratio_str_reduced_witness :
    (∃ a b, aspect_ratio_str 1280 720 = some (toString a ++ ":" ++ toString b) ∧
      Nat.Coprime a b ∧ a * Nat.gcd 1280 720 = 1280 ∧ b * Nat.gcd 1280 720 = 720) ∧
    aspect_ratio_str (1280 * 2) (720 * 2) = aspect_ratio_str 1280 720 :=
  aspect_ratio_str_reduced 1280 720 2 (by decide) (by decide)

/-- When the chunk walk reaches a data chunk of size cs, the scanning loop
returns the clamped duration cs * 1000 / byte_rate. -/
theorem scan_chunks_finds (data : List Nat) (rate : Nat) :
    ∀ fuel offset cs, first_data_chunk data fuel offset = some cs →
      scan_chunks data rate fuel offset = clampU32 (cs * 1000 / rate) := by
  intro fuel
  induction fuel with
  | zero =>
    intro offset cs h
    simp [first_data_chunk] at h
  | succ n ih =>
    intro offset cs h
    rw [first_data_chunk] at h
    rw [scan_chunks]
    by_cases hb : offset + 8 < data.length
    · rw [if_pos hb] at h
      rw [if_pos hb]
      by_cases hid : chunkIdAt data offset = dataChunkId
      · rw [if_pos hid] at h
        rw [if_pos hid]
        cases h
        rfl
      · rw [if_neg hid] at h
        rw [if_neg hid]
        exact ih _ _ h
    · rw [if_neg hb] at h
      cases h

/-- The 44-byte WAV whose first chunk is a data chunk of size u32 max with
byte rate 1: the f64 to u32 cast of the source saturates on it. -/
def badWav : List Nat :=
  [82, 73, 70, 70, 0, 0, 0, 0, 87, 65, 86, 69,
   100, 97, 116, 97, 255, 255, 255, 255,
   0, 0, 0, 0, 0, 0, 0, 0,
   1, 0, 0, 0,
   0, 0, 0, 0, 0, 0, 0, 0, 0, 0, 0, 0]

/-- C8 counterexample: on a WAV whose data chunk size is 4294967295 with
byte rate 1 the claimed value floor(chunk_size / byte_rate * 1000) is
4294967295000, but the cast to u32 saturates and the code returns
4294967295. -/
theorem parse_audio_duration_not_floor :
    read_u32_le badWav 28 = 1 ∧
    first_data_chunk badWav badWav.length 12 = some 4294967295 ∧
    parse_audio_duration badWav = 4294967295 ∧
    4294967295 * 1000 / 1 = 4294967295000 ∧
    parse_audio_duration badWav ≠ 4294967295 * 1000 / 1 := by
  decide

/-- C8 amended: inputs shorter than 44 bytes give 0; inputs of at least 44
bytes without the RIFF and WAVE magic give the clamped 128 kbps estimate
floor(len * 1000 / 16000); WAV inputs with nonzero byte_rate whose chunk
walk finds a data chunk of size cs give the clamped
floor(cs * 1000 / byte_rate), the clamp being the saturating f64 to u32
cast. -/
theorem parse_audio_duration_spec (data : List Nat) (cs : Nat) :
    (data.length < 44 → parse_audio_duration data = 0) ∧
    (44 ≤ data.length →
      ¬(chunkIdAt data 0 = riffId ∧ chunkIdAt data 8 = waveId) →
      parse_audio_duration data = clampU32 (data.length * 1000 / 16000)) ∧
    (44 ≤ data.length → chunkIdAt data 0 = riffId → chunkIdAt data 8 = waveId →
      read_u32_le data 28 ≠ 0 →
      first_data_chunk data data.length 12 = some cs →
      parse_audio_duration data = clampU32 (cs * 1000 / read_u32_le data 28)) := by
  refine ⟨?_, ?_, ?_⟩
  · intro h
    simp [parse_audio_duration, h]
  · intro h1 h2
    rw [parse_audio_duration, if_neg (Nat.not_lt.mpr h1), if_neg h2]
  · intro h44 hr hw hb hf
    rw [parse_audio_duration, if_neg (Nat.not_lt.mpr h44), if_pos ⟨hr, hw⟩]
    show (if read_u32_le data 28 = 0 then 0
      else scan_chunks data (read_u32_le data 28) data.length 12) = _
    rw [if_neg hb]
    exact scan_chunks_finds data (read_u32_le data 28) data.length 12 cs hf

/-- The 46-byte WAV with an fmt chunk, byte rate 8000 and a data chunk of
size 16: a well-formed small input for the witness. -/
def goodWav : List Nat :=
  [82, 73, 70, 70, 0, 0, 0, 0, 87, 65, 86, 69,
   102, 109, 116, 32, 16, 0, 0, 0,
   0, 0, 0, 0, 0, 0, 0, 0,
   64, 31, 0, 0,
   0, 0, 0, 0,
   100, 97, 116, 97, 16, 0, 0, 0,
   0, 0]

/-- C8 witness: the three clauses applied at concrete inputs — a 43-byte
input gives 0, a 44-byte non-WAV input gives the estimate, and the good
WAV gives its data-chunk duration of 2 ms. -/
theorem parse_audio_duration_spec_witness :
    parse_audio_duration (List.replicate 43 0) = 0 ∧
    parse_audio_duration (List.replicate 44 7) =
      clampU32 ((List.replicate 44 7 : List Nat).length * 1000 / 16000) ∧
    parse_audio_duration goodWav = clampU32 (16 * 1000 / read_u32_le goodWav 28) ∧
    parse_audio_duration goodWav = 2 :=
  ⟨(parse_audio_duration_spec (List.replicate 43 0) 0).1 (by decide),
   (parse_audio_duration_spec (List.replicate 44 7) 0).2.1 (by decide) (by decide),
   (parse_audio_duration_spec goodWav 16).2.2 (by decide) (by decide) (by decide)
     (by decide) (by decide),
   by decide⟩

theorem luLe_refl (a : Option Nat) : luLe a a = true := by
  cases a <;> simp [luLe]

set_option linter.unnecessarySeqFocus false in
theorem luLe_trans {a b c : Option Nat} (h1 : luLe a b = true)
    (h2 : luLe b c = true) : luLe a c = true := by
  cases a <;> cases b <;> cases c <;> simp [luLe] at * <;> omega

set_option linter.unnecessarySeqFocus false in
theorem luLe_of_not {a b : Option Nat} (h : luLe a b = false) :
    luLe b a = true := by
  cases a <;> cases b <;> simp [luLe] at * <;> omega

/-- The id subquery returns nothing exactly when no session is eligible. -/
theorem select_min_none_iff (l : List SessionInfo) :
    select_min_eligible l = none ↔ ∀ s ∈ l, eligible s = false := by
  induction l with
  | nil => simp [select_min_eligible]
  | cons s rest ih =>
    cases hrest : select_min_eligible rest with
    | none =>
      simp only [select_min_eligible, hrest]
      have hall : ∀ t ∈ rest, eligible t = false := ih.mp hrest
      by_cases he : eligible s = true
      · rw [if_pos he]
        constructor
        · intro h; cases h
        · intro h
          exact absurd (h s (List.mem_cons_self s rest)) (by simp [he])
      · rw [if_neg he]
        simp only [Bool.not_eq_true] at he
        constructor
        · intro _ t ht
          rcases List.mem_cons.mp ht with h1 | h1
          · rw [h1]; exact he
          · exact hall t h1
        · intro _; rfl
    | some mr =>
      simp only [select_min_eligible, hrest]
      constructor
      · intro h
        split at h
        · cases h
        · cases h
      · intro h
        have hnone : select_min_eligible rest = none :=
          ih.mpr fun t ht => h t (List.mem_cons_of_mem s ht)
        rw [hrest] at hnone
        cases hnone

/-- The id subquery returns an eligible member of the pool whose
last_used_at is minimal among the eligible sessions. -/
theorem select_min_some (l : List SessionInfo) (m : SessionInfo)
    (h : select_min_eligible l = some m) :
    m ∈ l ∧ eligible m = true ∧
      ∀ t ∈ l, eligible t = true → luLe m.last_used_at t.last_used_at = true := by
  induction l generalizing m with
  | nil => simp [select_min_eligible] at h
  | cons s rest ih =>
    cases hrest : select_min_eligible rest with
    | none =>
      simp only [select_min_eligible, hrest] at h
      by_cases he : eligible s = true
      · rw [if_pos he] at h
        cases h
        refine ⟨List.mem_cons_self s rest, he, ?_⟩
        intro t ht het
        rcases List.mem_cons.mp ht with h1 | h1
        · rw [h1]; exact luLe_refl _
        · have hall := (select_min_none_iff rest).mp hrest
          rw [hall t h1] at het
          cases het
      · rw [if_neg he] at h
        cases h
    | some mr =>
      simp only [select_min_eligible, hrest] at h
      obtain ⟨hmem, helig, hmin⟩ := ih mr hrest
      by_cases hc : (eligible s && luLe s.last_used_at mr.last_used_at) = true
      · rw [if_pos hc] at h
        injection h with h9
        subst h9
        rw [Bool.and_eq_true] at hc
        refine ⟨List.mem_cons_self s rest, hc.1, ?_⟩
        intro t ht het
        rcases List.mem_cons.mp ht with h1 | h1
        · rw [h1]; exact luLe_refl _
        · exact luLe_trans hc.2 (hmin t h1 het)
      · rw [if_neg hc] at h
        injection h with h9
        subst h9
        refine ⟨List.mem_cons_of_mem s hmem, helig, ?_⟩
        intro t ht het
        rcases List.mem_cons.mp ht with h1 | h1
        · have hsm : luLe s.last_used_at mr.last_used_at = false := by
            cases hb : luLe s.last_used_at mr.last_used_at
            · rfl
            · rw [h1] at het
              exact absurd (by rw [Bool.and_eq_true]; exact ⟨het, hb⟩) hc
          rw [h1]
          exact luLe_of_not hsm
        · exact hmin t h1 het

/-- C2: pick_session picks an eligible session (enabled, healthy, fewer
than 2 active tasks) with minimal last_used_at, atomically increments its
active_tasks, sets last_used_at to now, returns the full updated row and
rewrites only that pool entry; when no session is eligible it returns
nothing and leaves every row unchanged, and whenever an eligible session
exists it returns one. -/
theorem pick_session_spec (pool : List SessionInfo) (now : Nat) :
    ((∀ s ∈ pool, eligible s = false) → pick_session pool now = (none, pool)) ∧
    ((∃ s ∈ pool, eligible s = true) → ∃ m2, (pick_session pool now).1 = some m2) ∧
    (∀ m2, (pick_session pool now).1 = some m2 →
      ∃ m, m ∈ pool ∧ eligible m = true ∧
        (∀ t ∈ pool, eligible t = true → luLe m.last_used_at t.last_used_at = true) ∧
        m2 = reserve m now ∧
        m2.active_tasks = m.active_tasks + 1 ∧ m2.last_used_at = some now ∧
        m2.id = m.id ∧ m2.enabled = m.enabled ∧ m2.healthy = m.healthy ∧
        (pick_session pool now).2 =
          pool.map fun s => if s.id = m.id then m2 else s) := by
  refine ⟨?_, ?_, ?_⟩
  · intro h
    simp [pick_session, (select_min_none_iff pool).mpr h]
  · intro hex
    obtain ⟨s, hs, he⟩ := hex
    cases hsel : select_min_eligible pool with
    | none =>
      exact absurd ((select_min_none_iff pool).mp hsel s hs) (by simp [he])
    | some m =>
      exact ⟨reserve m now, by simp [pick_session, hsel]⟩
  · intro m2 h2
    cases hsel : select_min_eligible pool with
    | none => simp [pick_session, hsel] at h2
    | some m =>
      obtain ⟨hmem, helig, hmin⟩ := select_min_some pool m hsel
      have hm2 : m2 = reserve m now := by
        simp [pick_session, hsel] at h2
        exact h2.symm
      subst hm2
      exact ⟨m, hmem, helig, hmin, rfl, rfl, rfl, rfl, rfl, rfl,
        by simp [pick_session, hsel]⟩

/-- C2 witness: a pool with only an ineligible session is untouched and
yields nothing; a pool with an eligible session yields a row. -/
theorem pick_session_spec_witness :
    pick_session [⟨1, false, true, 0, none⟩] 5 = (none, [⟨1, false, true, 0, none⟩]) ∧
    (∃ m2, (pick_session [⟨2, true, true, 0, some 3⟩] 9).1 = some m2) :=
  ⟨(pick_session_spec [⟨1, false, true, 0, none⟩] 5).1 (by decide),
   (pick_session_spec [⟨2, true, true, 0, some 3⟩] 9).2.1
     ⟨⟨2, true, true, 0, some 3⟩, by decide, by decide⟩⟩

/-- C4: the translated check agrees with the specification text of the
rate-limit algorithm: limit 0 allows with all-zero fields and touches no
bucket, and for positive limits the bucket refills to
min(max, tokens + elapsed * limit/60) before one token is consumed when
available (remaining the floor of the rest, reset ceil(1/rate) when the
floor is zero) or the call is denied with reset ceil((1 - tokens)/rate);
the stored bucket of a live credential satisfies WFBucket. -/
theorem check_matches_spec :
    (∀ prev e, check prev 0 e =
      ({ allowed := true, limit := 0, remaining := 0, reset_secs := 0 }, prev)) ∧
    (∀ prev limit e, WFBucket prev → check prev limit e = check_spec prev limit e) := by
  constructor
  · intro prev e
    simp [check]
  · intro prev limit e hwf
    by_cases h0 : limit = 0
    · subst h0
      simp [check, check_spec]
    · cases prev with
      | none =>
        have habs : ¬((1:ℚ)/100 < |(limit:ℚ) - (limit:ℚ)|) := by
          rw [sub_self, abs_zero]
          norm_num
        simp only [check, check_spec, if_neg h0, if_neg habs]
      | some b =>
        obtain ⟨mB, hmax, hrate⟩ := hwf
        by_cases hm : mB = limit
        · subst hm
          have habs : ¬((1:ℚ)/100 < |(mB:ℚ) - (mB:ℚ)|) := by
            rw [sub_self, abs_zero]
            norm_num
          simp only [check, check_spec, if_neg h0, hmax, hrate, if_neg habs]
        · have hne : ((mB:ℤ) - (limit:ℤ)) ≠ 0 := by
            omega
          have h1 : (1:ℚ) ≤ |(mB:ℚ) - (limit:ℚ)| := by
            rw [show ((mB:ℚ) - (limit:ℚ)) = (((mB:ℤ) - (limit:ℤ) : ℤ) : ℚ) by push_cast; ring]
            rw [← Int.cast_abs]
            exact_mod_cast Int.one_le_abs hne
          have habs : (1:ℚ)/100 < |b.max_tokens - (limit:ℚ)| := by
            rw [hmax]
            linarith
          simp only [check, check_spec, if_neg h0, if_pos habs]

/-- C4 witness: the zero-limit sentinel at a concrete call, and agreement
with the specification on a well-formed bucket of limit 10. -/
theorem check_matches_spec_witness :
    check none 0 3 = ({ allowed := true, limit := 0, remaining := 0, reset_secs := 0 }, none) ∧
    check (some ⟨5, 10, 1/6⟩) 10 6 = check_spec (some ⟨5, 10, 1/6⟩) 10 6 :=
  ⟨check_matches_spec.1 none 3,
   check_matches_spec.2 (some ⟨5, 10, 1/6⟩) 10 6 ⟨10, by norm_num, by norm_num⟩⟩

/-- C6 counterexample: the response built for a denied rate-limit result
with limit 2, remaining 0 and reset 30 is a 429 whose header list carries
only the three X-RateLimit headers and no Retry-After header,
contradicting the claimed Retry-After: reset_secs header. -/
theorem rate_limit_response_no_retry_after :
    (rate_limit_response ⟨false, 2, 0, 30⟩).status = 429 ∧
    (rate_limit_response ⟨false, 2, 0, 30⟩).headers.lookup "Retry-After" = none ∧
    (rate_limit_response ⟨false, 2, 0, 30⟩).headers.length = 3 := by
  decide

/-- C6 amended: a denied check always carries a positive limit, and the
response built for any result with positive limit has status 429, the
X-RateLimit-Limit, X-RateLimit-Remaining and X-RateLimit-Reset headers
echoing the bucket state, and a JSON body with the error message and
retry_after = reset_secs; the reset interval is carried only in the body,
no Retry-After header is set. -/
theorem rate_limit_denied_response :
    (∀ prev limit e, (check prev limit e).1.allowed = false →
      0 < (check prev limit e).1.limit) ∧
    (∀ rl : RateLimitResult, 0 < rl.limit →
      (rate_limit_response rl).status = 429 ∧
      (rate_limit_response rl).headers.lookup "X-RateLimit-Limit" = some rl.limit ∧
      (rate_limit_response rl).headers.lookup "X-RateLimit-Remaining" = some rl.remaining ∧
      (rate_limit_response rl).headers.lookup "X-RateLimit-Reset" = some rl.reset_secs ∧
      (rate_limit_response rl).body_error = "Rate limit exceeded" ∧
      (rate_limit_response rl).body_retry_after = rl.reset_secs ∧
      (rate_limit_response rl).headers.lookup "Retry-After" = none) := by
  constructor
  · intro prev limit e hd
    have hl : limit ≠ 0 := by
      intro h
      subst h
      simp [check] at hd
    have hlim : (check prev limit e).1.limit = limit := by
      simp only [check]
      split
      · rename_i h
        exact absurd h hl
      · split
        · split
          · rfl
          · rfl
        · split
          · rfl
          · rfl
    rw [hlim]
    exact Nat.pos_of_ne_zero hl
  · intro rl hpos
    refine ⟨rfl, ?_, ?_, ?_, rfl, rfl, ?_⟩
    · show (inject_rate_limit_headers [] rl).lookup "X-RateLimit-Limit" = _
      rw [inject_rate_limit_headers, if_pos hpos]
      rfl
    · show (inject_rate_limit_headers [] rl).lookup "X-RateLimit-Remaining" = _
      rw [inject_rate_limit_headers, if_pos hpos]
      rfl
    · show (inject_rate_limit_headers [] rl).lookup "X-RateLimit-Reset" = _
      rw [inject_rate_limit_headers, if_pos hpos]
      rfl
    · show (inject_rate_limit_headers [] rl).lookup "Retry-After" = _
      rw [inject_rate_limit_headers, if_pos hpos]
      rfl

/-- C6 witness: the amended response shape at a concrete denied result. -/
theorem rate_limit_denied_response_witness :
    (rate_limit_response ⟨false, 5, 0, 12⟩).status = 429 ∧
    (rate_limit_response ⟨false, 5, 0, 12⟩).headers.lookup "X-RateLimit-Limit" = some 5 ∧
    (rate_limit_response ⟨false, 5, 0, 12⟩).headers.lookup "X-RateLimit-Remaining" = some 0 ∧
    (rate_limit_response ⟨false, 5, 0, 12⟩).headers.lookup "X-RateLimit-Reset" = some 12 ∧
    (rate_limit_response ⟨false, 5, 0, 12⟩).body_error = "Rate limit exceeded" ∧
    (rate_limit_response ⟨false, 5, 0, 12⟩).body_retry_after = 12 ∧
    (rate_limit_response ⟨false, 5, 0, 12⟩).headers.lookup "Retry-After" = none :=
  rate_limit_denied_response.2 ⟨false, 5, 0, 12⟩ (by decide)

/-- C3 counterexample: a credential with daily quota 1 that already has 1
task today is rejected with 429 on the compat endpoint but is admitted
with 201 and no count increment by the typed create_task endpoint, so the
claim quantified over all task-creation endpoints fails. -/
theorem create_task_skips_quota :
    compat_video_generations (Caller.apiKey "k1" 1) 1 = (429, 1) ∧
    create_task (Caller.apiKey "k1" 1) 1 = (201, 1) ∧
    (201 ≠ 429) := by
  decide

/-- C3 amended: only the compat endpoint enforces the daily quota: an
ApiKey caller with daily_quota q > 0 is rejected with 429 once today count
reaches q, otherwise admitted with 202 and the count incremented, so the
compat endpoint never pushes the count beyond q; the typed create_task
endpoint admits with 201, checking no quota and recording no task. -/
theorem compat_quota_enforced (k : String) (q t : Int) :
    (0 < q → q ≤ t → compat_video_generations (.apiKey k q) t = (429, t)) ∧
    (0 < q → t < q → compat_video_generations (.apiKey k q) t = (202, t + 1)) ∧
    (0 < q → t ≤ q → (compat_video_generations (.apiKey k q) t).2 ≤ q) ∧
    create_task (.apiKey k q) t = (201, t) := by
  refine ⟨?_, ?_, ?_, rfl⟩
  · intro h1 h2
    simp [compat_video_generations, h1, h2]
  · intro h1 h2
    rw [compat_video_generations, if_neg]
    intro hc
    omega
  · intro h1 h2
    by_cases hc : q ≤ t
    · rw [compat_video_generations, if_pos ⟨h1, hc⟩]
      exact h2
    · rw [compat_video_generations, if_neg fun hx => hc hx.2]
      show t + 1 ≤ q
      omega

/-- C3 witness: quota 2 rejects the third task on the compat endpoint,
admits and counts the second, and create_task admits regardless. -/
theorem compat_quota_enforced_witness :
    compat_video_generations (.apiKey "k2" 2) 2 = (429, 2) ∧
    compat_video_generations (.apiKey "k2" 2) 1 = (202, 2) ∧
    create_task (.apiKey "k2" 2) 2 = (201, 2) :=
  ⟨(compat_quota_enforced "k2" 2 2).1 (by decide) (by decide),
   (compat_quota_enforced "k2" 2 1).2.1 (by decide) (by decide),
   (compat_quota_enforced "k2" 2 2).2.2.2⟩

end JimengGateway
